import Mathlib

/-!
Verification of the IAP tunnel client (package `iap`, file with `Conn`,
`readFrame`, `writeFrame`).  The wire subprotocol and the two loop bodies are
embedded as pure Lean functions:

* the transport read side is a finite byte stream `List Nat` (each element one
  byte); exhaustion of the stream is a clean EOF;
* Go `uint64` counters are `Nat` with explicit `% 2^64` where the source does
  wrapping arithmetic (`+=` on `recvNbUnacked`) and Go's wrapping subtraction
  `x - y` on `uint64` is `sub64`;
* the reader-loop body `readFrame` returns, besides the updated `Conn` state
  and the remaining stream, the bytes written to the receive pipe and the ACK
  frames written to the transport;
* fallible reads return `Except ReadError`.
-/

namespace GoIap

/-- `subprotoMaxFrameSize` from the source. -/
def subprotoMaxFrameSize : Nat := 16384

/-- `subprotoAckThreshold = 2 * subprotoMaxFrameSize` from the source. -/
def subprotoAckThreshold : Nat := 2 * subprotoMaxFrameSize

/-- `subprotoTagSuccess` (0x1). -/
def subprotoTagSuccess : Nat := 1

/-- `subprotoTagData` (0x4). -/
def subprotoTagData : Nat := 4

/-- `subprotoTagAck` (0x7). -/
def subprotoTagAck : Nat := 7

/-- 2^64, the modulus of Go's `uint64`. -/
def u64size : Nat := 18446744073709551616

/-- Go `uint64` addition/assignment truncation. -/
def wrap64 (n : Nat) : Nat := n % u64size

/-- Go `uint64` subtraction `x - y` for `x y < 2^64` (wraps modulo 2^64). -/
def sub64 (x y : Nat) : Nat := (x + u64size - y) % u64size

/-- Big-endian value of a byte list, as computed by `binary.BigEndian.UintNN`
on the buffer filled by the preceding read. -/
def beUint (l : List Nat) : Nat := l.foldl (fun acc b => acc * 256 + b) 0

/-- `binary.BigEndian.PutUint16`. -/
def be16 (n : Nat) : List Nat := [n / 256 % 256, n % 256]

/-- `binary.BigEndian.PutUint32`. -/
def be32 (n : Nat) : List Nat :=
  [n / 16777216 % 256, n / 65536 % 256, n / 256 % 256, n % 256]

/-- `binary.BigEndian.PutUint64`. -/
def be64 (n : Nat) : List Nat :=
  [n / 72057594037927936 % 256, n / 281474976710656 % 256,
   n / 1099511627776 % 256, n / 4294967296 % 256,
   n / 16777216 % 256, n / 65536 % 256, n / 256 % 256, n % 256]

/-- Errors surfaced by the reader side: `ProtocolError{msg}` from the source,
or an I/O error from a transport read that cannot be satisfied (clean EOF). -/
inductive ReadError where
  | protocolError (msg : String)
  | eof
deriving DecidableEq

/-- The fields of `Conn` that the subprotocol logic reads or writes.  The
pipes, buffers and channels are modelled as explicit inputs/outputs of the
loop bodies instead of state. -/
structure ConnState where
  connected : Bool := false
  sessionID : List Nat := []
  recvNbAcked : Nat := 0
  recvNbUnacked : Nat := 0
  sendNbAcked : Nat := 0
deriving DecidableEq

/-- The state of a freshly constructed `Conn` (`newConn`): zero counters, not
connected, empty session id. -/
def newConnState : ConnState := {}

/-- A transport read filling a `k`-byte buffer: consume exactly `k` bytes of
the stream.  If the stream is exhausted first the enclosing source code
observes an error return from `Read` (clean EOF); a Go `Read` that returned
fewer than `k` bytes with a nil error (partial delivery mid-stream) is not
modelled — no claim exercises that case. -/
def readBytes (k : Nat) (s : List Nat) : Except ReadError (List Nat × List Nat) :=
  if k ≤ s.length then .ok (s.take k, s.drop k) else .error .eof

/-- `copyNBuffer(w, r, n, buf) = io.CopyBuffer(w, io.LimitReader(r, n), buf)`:
copies `min n |stream|` bytes (staging through `buf` is not observable) and,
like `io.Copy`, treats EOF on the source as success — it never reports an
error when the stream runs out early.  Returns (bytes written, rest). -/
def copyNBuffer (n : Nat) (s : List Nat) : List Nat × List Nat :=
  (s.take n, s.drop n)

/-- `makeSuccessFrame`: panics (`none`) when the frame would exceed
`math.MaxUint32`, else tag 0x0001, 4-byte length, session id. -/
def makeSuccessFrame (sessionID : List Nat) : Option (List Nat) :=
  if sessionID.length + 6 > 4294967295 then none
  else some (be16 subprotoTagSuccess ++ be32 sessionID.length ++ sessionID)

/-- `makeAckFrame`: 10-byte frame, tag 0x0007 followed by the 8-byte count. -/
def makeAckFrame (nb : Nat) : List Nat := be16 subprotoTagAck ++ be64 nb

/-- `makeDataFrame`: panics (`none`) when `len(data)+6 > math.MaxUint32`, else
tag 0x0004, 4-byte big-endian payload length, payload. -/
def makeDataFrame (data : List Nat) : Option (List Nat) :=
  if data.length + 6 > 4294967295 then none
  else some (be16 subprotoTagData ++ be32 data.length ++ data)

/-- `Conn.readSuccessFrame`: read a 4-byte length, reject `> 16384`, read the
session id, store it and set `connected = true`. -/
def readSuccessFrame (c : ConnState) (s : List Nat) :
    Except ReadError (ConnState × List Nat) :=
  match readBytes 4 s with
  | .error e => .error e
  | .ok (lenBytes, s) =>
    if beUint lenBytes > subprotoMaxFrameSize then
      .error (.protocolError "len exceeds subprotocol max data frame size")
    else
      match readBytes (beUint lenBytes) s with
      | .error e => .error e
      | .ok (sid, s) => .ok ({ c with sessionID := sid, connected := true }, s)

/-- `Conn.readAckFrame`: read 8 bytes and assign the big-endian value to
`sendNbAcked` (overwriting whatever was there). -/
def readAckFrame (c : ConnState) (s : List Nat) :
    Except ReadError (ConnState × List Nat) :=
  match readBytes 8 s with
  | .error e => .error e
  | .ok (b, s) => .ok ({ c with sendNbAcked := beUint b }, s)

/-- `Conn.readDataFrame`: read a 4-byte length, reject `> 16384`, then
`copyNBuffer` the declared number of bytes into the receive pipe and add the
declared length (not the transferred count, which it discards) to
`recvNbUnacked` with `uint64` wrap-around.  Returns the updated state, the
remaining stream and the bytes written into the receive pipe. -/
def readDataFrame (c : ConnState) (s : List Nat) :
    Except ReadError (ConnState × List Nat × List Nat) :=
  match readBytes 4 s with
  | .error e => .error e
  | .ok (lenBytes, s) =>
    if beUint lenBytes > subprotoMaxFrameSize then
      .error (.protocolError "len exceeds subprotocol max data frame size")
    else
      .ok ({ c with recvNbUnacked := wrap64 (c.recvNbUnacked + beUint lenBytes) },
           (copyNBuffer (beUint lenBytes) s).2, (copyNBuffer (beUint lenBytes) s).1)

/-- `Conn.readFrame`: read a 2-byte tag; SUCCESS frames are decoded
unconditionally, any other tag first requires `connected`; ACK and DATA are
decoded, and after a successful DATA decode the ack threshold may fire,
emitting one ACK frame and raising `recvNbAcked` to `recvNbUnacked`; unknown
tags are ignored, consuming nothing.  Result: updated state, remaining
stream, bytes for the receive pipe, ACK frames written to the transport.
(When `readDataFrame` fails with the threshold already exceeded the source
also emits an ACK before returning the error; the step still fails with the
same error, and that corner is unreachable from states satisfying `RecvInv`.)
Transport writes (`writeAck`) are modelled as always succeeding. -/
def readFrame (c : ConnState) (s : List Nat) :
    Except ReadError (ConnState × List Nat × List Nat × List (List Nat)) :=
  match readBytes 2 s with
  | .error e => .error e
  | .ok (tagBytes, s) =>
    if beUint tagBytes = subprotoTagSuccess then
      match readSuccessFrame c s with
      | .error e => .error e
      | .ok (c, s) => .ok (c, s, [], [])
    else if c.connected = false then
      .error (.protocolError "expected success frame but not did receive one")
    else if beUint tagBytes = subprotoTagAck then
      match readAckFrame c s with
      | .error e => .error e
      | .ok (c, s) => .ok (c, s, [], [])
    else if beUint tagBytes = subprotoTagData then
      match readDataFrame c s with
      | .error e => .error e
      | .ok (c, s, out) =>
        if sub64 c.recvNbUnacked c.recvNbAcked > subprotoAckThreshold then
          .ok ({ c with recvNbAcked := c.recvNbUnacked }, s, out,
               [makeAckFrame c.recvNbUnacked])
        else
          .ok (c, s, out, [])
    else
      .ok (c, s, [], [])

/-- `Conn.read`, the reader loop: run `readFrame` until it fails, with fuel
bounding the number of iterations (`none` = fuel ran out before an error).
On an error the loop closes both pipes with it and exits; the returned tuple
is (terminal error, final state, all receive-pipe bytes, all ACK frames). -/
def readLoop (fuel : Nat) (c : ConnState) (s : List Nat) :
    Option (ReadError × ConnState × List Nat × List (List Nat)) :=
  match fuel with
  | 0 => none
  | Nat.succ fuel =>
    match readFrame c s with
    | .error e => some (e, c, [], [])
    | .ok (c', s', out, acks) =>
      match readLoop fuel c' s' with
      | none => none
      | some (e, cf, outs, ackss) => some (e, cf, out ++ outs, acks ++ ackss)

/-- The chunking loop of `Conn.writeFrame` for one announcement `nb`: clamp
each write to `subprotoMaxFrameSize`, read that many bytes from the send
pipe, frame and send them.  Returns the payload buffers in emission order.
`pipe` is the content of the send pipe, which for a single in-flight
`Conn.Write` is exactly the announced buffer, so each pipe read returns the
full requested count. -/
def writeFrame (nb : Nat) (pipe : List Nat) : List (List Nat) :=
  if _h : nb = 0 then []
  else
    let writeNb := min nb subprotoMaxFrameSize
    pipe.take writeNb :: writeFrame (nb - writeNb) (pipe.drop writeNb)
termination_by nb
decreasing_by
  simp only [subprotoMaxFrameSize]
  omega

/-- The sizes of the buffers (`make([]byte, writeNb)`) that one
`Conn.writeFrame` call asks the send-pipe reader to fill, for announcement
`nb`. -/
def writerReadSizes (nb : Nat) : List Nat :=
  if _h : nb = 0 then []
  else
    let writeNb := min nb subprotoMaxFrameSize
    writeNb :: writerReadSizes (nb - writeNb)
termination_by nb
decreasing_by
  simp only [subprotoMaxFrameSize]
  omega

/-- The rendezvous loop of `io.Pipe`'s write (Go `io/pipe.go`): the chunk `b`
is offered to successive pipe reads (of the given buffer sizes); each read
consumes `min readSize |b|` bytes; the loop body runs at least `once` even
for an empty `b`.  `none` means no further read arrives and the write call
blocks; `some n` means the write call returns `(n, nil)`. -/
def pipeWriteLoop (b : List Nat) (reads : List Nat) (once : Bool) (n : Nat) :
    Option Nat :=
  if once = true ∨ b ≠ [] then
    match reads with
    | [] => none
    | r :: rs => pipeWriteLoop (b.drop (min r b.length)) rs false (n + min r b.length)
  else
    some n

/-- `io.PipeWriter.Write b` against a given schedule of reader buffer sizes. -/
def pipeWrite (b : List Nat) (reads : List Nat) : Option Nat :=
  pipeWriteLoop b reads true 0

/-- `Conn.Write buf` for a single in-flight write: the announcement
`buf.length` is consumed by one `writeFrame` call, whose pipe reads are the
only reads of the send pipe; `Write` returns `(n, nil)` exactly when its pipe
write completes against those reads, i.e. when this is `some n`. -/
def connWriteReturns (buf : List Nat) : Option Nat :=
  pipeWrite buf (writerReadSizes buf.length)

/-- Reader-side counter invariant: established at `newConnState` and
preserved by every successful `readFrame` step (below). -/
abbrev RecvInv (c : ConnState) : Prop :=
  c.recvNbAcked ≤ c.recvNbUnacked ∧
  c.recvNbUnacked - c.recvNbAcked ≤ subprotoAckThreshold ∧
  c.recvNbUnacked < u64size

deriving instance DecidableEq for Except

/-! ### Big-endian round trips and stream-read lemmas -/

lemma beUint_be32 (n : Nat) (h : n < 4294967296) : beUint (be32 n) = n := by
  simp [beUint, be32]
  omega

lemma beUint_be64 (n : Nat) (h : n < 18446744073709551616) : beUint (be64 n) = n := by
  simp [beUint, be64]
  omega

lemma readBytes_exact (k : Nat) (a b : List Nat) (h : a.length = k) :
    readBytes k (a ++ b) = .ok (a, b) := by
  unfold readBytes
  rw [if_pos (by rw [List.length_append]; omega)]
  rw [← h, List.take_left, List.drop_left]

lemma sub64_eq_sub (x y : Nat) (hyx : y ≤ x) (hx : x < u64size) : sub64 x y = x - y := by
  unfold sub64 u64size at *
  omega

/-! ### Reader-side state lemmas -/

lemma readSuccessFrame_state (c c' : ConnState) (s s' : List Nat)
    (h : readSuccessFrame c s = .ok (c', s')) :
    c'.recvNbAcked = c.recvNbAcked ∧ c'.recvNbUnacked = c.recvNbUnacked ∧
    c'.sendNbAcked = c.sendNbAcked ∧ c'.connected = true := by
  unfold readSuccessFrame at h
  repeat' split at h
  all_goals simp_all
  obtain ⟨hc, -⟩ := h
  subst hc
  simp

lemma readAckFrame_state (c c' : ConnState) (s s' : List Nat)
    (h : readAckFrame c s = .ok (c', s')) :
    c'.recvNbAcked = c.recvNbAcked ∧ c'.recvNbUnacked = c.recvNbUnacked ∧
    c'.connected = c.connected := by
  unfold readAckFrame at h
  repeat' split at h
  all_goals simp_all
  obtain ⟨hc, -⟩ := h
  subst hc
  simp

lemma readDataFrame_state (c c' : ConnState) (s s' out : List Nat)
    (h : readDataFrame c s = .ok (c', s', out)) :
    ∃ L ≤ subprotoMaxFrameSize,
      c' = { c with recvNbUnacked := wrap64 (c.recvNbUnacked + L) } := by
  unfold readDataFrame at h
  repeat' split at h
  all_goals simp_all
  obtain ⟨hc, -⟩ := h
  exact ⟨_, by omega, hc.symm⟩

lemma wrap64_eq (n : Nat) (h : n < u64size) : wrap64 n = n := by
  unfold wrap64 u64size at *
  omega

/-- Every successful `readFrame` step from a state satisfying `RecvInv`
(whose `recvNbUnacked` cannot overflow on this step) preserves `RecvInv` and
never decreases `recvNbAcked` or `recvNbUnacked`. -/
lemma readFrame_inv (c c' : ConnState) (s s' out : List Nat) (acks : List (List Nat))
    (hinv : RecvInv c) (hov : c.recvNbUnacked + subprotoMaxFrameSize < u64size)
    (h : readFrame c s = .ok (c', s', out, acks)) :
    RecvInv c' ∧ c.recvNbAcked ≤ c'.recvNbAcked ∧ c.recvNbUnacked ≤ c'.recvNbUnacked := by
  obtain ⟨hau, hdiff, hu⟩ := hinv
  unfold readFrame at h
  split at h
  · exact absurd h (by simp)
  next tagBytes s1 heq =>
    split at h
    · -- SUCCESS tag
      split at h
      · exact absurd h (by simp)
      next c1 s2 heq1 =>
        obtain ⟨h1, h2, h3, h4⟩ := readSuccessFrame_state c c1 s1 s2 heq1
        simp only [Except.ok.injEq, Prod.mk.injEq] at h
        obtain ⟨hc, -⟩ := h
        subst hc
        exact ⟨⟨by omega, by omega, by omega⟩, by omega, by omega⟩
    · split at h
      · exact absurd h (by simp)
      · split at h
        · -- ACK tag
          split at h
          · exact absurd h (by simp)
          next c1 s2 heq1 =>
            obtain ⟨h1, h2, h3⟩ := readAckFrame_state c c1 s1 s2 heq1
            simp only [Except.ok.injEq, Prod.mk.injEq] at h
            obtain ⟨hc, -⟩ := h
            subst hc
            exact ⟨⟨by omega, by omega, by omega⟩, by omega, by omega⟩
        · split at h
          · -- DATA tag
            split at h
            · exact absurd h (by simp)
            next c1 s2 out1 heq1 =>
              obtain ⟨L, hL, hc1⟩ := readDataFrame_state c c1 s1 s2 out1 heq1
              have hLmax : L ≤ 16384 := by
                simpa [subprotoMaxFrameSize] using hL
              have hovn : c.recvNbUnacked + 16384 < 18446744073709551616 := by
                simpa [subprotoMaxFrameSize, u64size] using hov
              have hwrap : wrap64 (c.recvNbUnacked + L) = c.recvNbUnacked + L := by
                apply wrap64_eq
                unfold u64size
                omega
              rw [hwrap] at hc1
              subst hc1
              rw [show ({ c with recvNbUnacked := c.recvNbUnacked + L } :
                    ConnState).recvNbUnacked = c.recvNbUnacked + L from rfl,
                  show ({ c with recvNbUnacked := c.recvNbUnacked + L } :
                    ConnState).recvNbAcked = c.recvNbAcked from rfl,
                  sub64_eq_sub _ _ (by omega) (by unfold u64size; omega)] at h
              have hthrn : subprotoAckThreshold = 32768 := by
                simp [subprotoAckThreshold, subprotoMaxFrameSize]
              split at h
              next hthr =>
                rw [hthrn] at hthr
                simp only [Except.ok.injEq, Prod.mk.injEq] at h
                obtain ⟨hc, -⟩ := h
                subst hc
                refine ⟨⟨le_refl _, ?_, ?_⟩, ?_, ?_⟩
                · show c.recvNbUnacked + L - (c.recvNbUnacked + L) ≤ subprotoAckThreshold
                  omega
                · show c.recvNbUnacked + L < u64size
                  unfold u64size
                  omega
                · show c.recvNbAcked ≤ c.recvNbUnacked + L
                  omega
                · show c.recvNbUnacked ≤ c.recvNbUnacked + L
                  omega
              next hthr =>
                rw [hthrn] at hthr
                simp only [Except.ok.injEq, Prod.mk.injEq] at h
                obtain ⟨hc, -⟩ := h
                subst hc
                refine ⟨⟨?_, ?_, ?_⟩, le_refl _, ?_⟩
                · show c.recvNbAcked ≤ c.recvNbUnacked + L
                  omega
                · show c.recvNbUnacked + L - c.recvNbAcked ≤ subprotoAckThreshold
                  rw [hthrn]
                  omega
                · show c.recvNbUnacked + L < u64size
                  unfold u64size
                  omega
                · show c.recvNbUnacked ≤ c.recvNbUnacked + L
                  omega
          · -- unknown tag
            simp only [Except.ok.injEq, Prod.mk.injEq] at h
            obtain ⟨hc, -⟩ := h
            subst hc
            exact ⟨⟨hau, hdiff, hu⟩, le_refl _, le_refl _⟩

/-! ### Writer-side lemmas -/

lemma writeFrame_eq (nb : Nat) (pipe : List Nat) :
    writeFrame nb pipe =
      if nb = 0 then []
      else pipe.take (min nb subprotoMaxFrameSize) ::
        writeFrame (nb - min nb subprotoMaxFrameSize)
          (pipe.drop (min nb subprotoMaxFrameSize)) := by
  rw [writeFrame]
  simp

lemma writeFrame_length (nb : Nat) :
    ∀ pipe : List Nat, (writeFrame nb pipe).length = (nb + 16383) / 16384 := by
  induction nb using Nat.strong_induction_on with
  | _ nb ih =>
    intro pipe
    rw [writeFrame_eq]
    by_cases h : nb = 0
    · subst h; simp
    · have hlt : nb - min nb subprotoMaxFrameSize < nb := by
        simp only [subprotoMaxFrameSize]; omega
      rw [if_neg h, List.length_cons, ih _ hlt]
      simp only [subprotoMaxFrameSize]
      omega

lemma writeFrame_flatten (nb : Nat) :
    ∀ pipe : List Nat, (writeFrame nb pipe).flatten = pipe.take nb := by
  induction nb using Nat.strong_induction_on with
  | _ nb ih =>
    intro pipe
    rw [writeFrame_eq]
    by_cases h : nb = 0
    · subst h; simp
    · have hlt : nb - min nb subprotoMaxFrameSize < nb := by
        simp only [subprotoMaxFrameSize]; omega
      rw [if_neg h, List.flatten_cons, ih _ hlt]
      have hmin : min nb subprotoMaxFrameSize + (nb - min nb subprotoMaxFrameSize) = nb := by
        simp only [subprotoMaxFrameSize]; omega
      rw [← List.take_add, hmin]

lemma writeFrame_chunk_le (nb : Nat) :
    ∀ (pipe chunk : List Nat), chunk ∈ writeFrame nb pipe →
      chunk.length ≤ subprotoMaxFrameSize := by
  induction nb using Nat.strong_induction_on with
  | _ nb ih =>
    intro pipe chunk hmem
    rw [writeFrame_eq] at hmem
    by_cases h : nb = 0
    · subst h; simp at hmem
    · have hlt : nb - min nb subprotoMaxFrameSize < nb := by
        simp only [subprotoMaxFrameSize]; omega
      rw [if_neg h] at hmem
      rcases List.mem_cons.mp hmem with heq | htail
      · subst heq
        simp only [List.length_take, subprotoMaxFrameSize]
        omega
      · exact ih _ hlt _ _ htail

lemma writerReadSizes_eq (nb : Nat) :
    writerReadSizes nb =
      if nb = 0 then []
      else min nb subprotoMaxFrameSize ::
        writerReadSizes (nb - min nb subprotoMaxFrameSize) := by
  rw [writerReadSizes]
  simp

lemma writeFrame_map_length (nb : Nat) :
    ∀ pipe : List Nat, nb ≤ pipe.length →
      (writeFrame nb pipe).map List.length = writerReadSizes nb := by
  induction nb using Nat.strong_induction_on with
  | _ nb ih =>
    intro pipe hle
    rw [writeFrame_eq, writerReadSizes_eq]
    by_cases h : nb = 0
    · subst h; simp
    · have hlt : nb - min nb subprotoMaxFrameSize < nb := by
        simp only [subprotoMaxFrameSize]; omega
      rw [if_neg h, if_neg h, List.map_cons]
      have hrec : nb - min nb subprotoMaxFrameSize ≤
          (pipe.drop (min nb subprotoMaxFrameSize)).length := by
        rw [List.length_drop]; omega
      rw [ih _ hlt _ hrec, List.length_take]
      congr 1
      omega

/-- C1: a `Conn.Write` of a buffer of `N` bytes announces `N`; the single
`writeFrame` call that consumes the announcement emits exactly `⌈N/16384⌉`
DATA frames, each payload at most 16384 bytes, and the concatenation of the
payloads is the written buffer byte-for-byte; in particular a 20000-byte
write yields exactly two payloads of lengths 16384 and 3616. -/
theorem write_chunking (buf : List Nat) :
    (writeFrame buf.length buf).length = (buf.length + 16383) / 16384 ∧
    (∀ chunk ∈ writeFrame buf.length buf, chunk.length ≤ subprotoMaxFrameSize) ∧
    (writeFrame buf.length buf).flatten = buf ∧
    (writeFrame 20000 (List.replicate 20000 170)).map List.length = [16384, 3616] := by
  refine ⟨writeFrame_length _ _, fun chunk h => writeFrame_chunk_le _ _ _ h, ?_, ?_⟩
  · rw [writeFrame_flatten, List.take_length]
  · rw [writeFrame_map_length 20000 _ (le_of_eq (List.length_replicate 20000 170).symm)]
    rw [writerReadSizes_eq, writerReadSizes_eq, writerReadSizes_eq]
    norm_num [subprotoMaxFrameSize]

/-- C10: every payload buffer the writer loop passes to `makeDataFrame` has
length at most 16384, so the "data too large for frame" panic branch is not
taken and the frame is the 6-byte header (tag 0x0004, 4-byte big-endian
payload length) followed by the payload. -/
theorem writer_makeDataFrame_no_panic (nb : Nat) (pipe chunk : List Nat)
    (h : chunk ∈ writeFrame nb pipe) :
    makeDataFrame chunk = some (be16 subprotoTagData ++ be32 chunk.length ++ chunk) := by
  have hle := writeFrame_chunk_le nb pipe chunk h
  simp only [subprotoMaxFrameSize] at hle
  unfold makeDataFrame
  rw [if_neg (by omega)]

/-- Witness for C10 at announcement 3 on pipe `[1,2,3]`. -/
theorem writer_makeDataFrame_no_panic_witness :
    makeDataFrame [1,2,3] =
      some (be16 subprotoTagData ++ be32 ([1,2,3] : List Nat).length ++ [1,2,3]) := by
  refine writer_makeDataFrame_no_panic 3 [1,2,3] [1,2,3] ?_
  rw [writeFrame_eq]
  norm_num [subprotoMaxFrameSize]

/-! ### Pipe-rendezvous lemmas (empty `Conn.Write`) -/

lemma writerReadSizes_sum (nb : Nat) : (writerReadSizes nb).sum = nb := by
  induction nb using Nat.strong_induction_on with
  | _ nb ih =>
    rw [writerReadSizes_eq]
    by_cases h : nb = 0
    · subst h; simp
    · have hlt : nb - min nb subprotoMaxFrameSize < nb := by
        simp only [subprotoMaxFrameSize]; omega
      rw [if_neg h, List.sum_cons, ih _ hlt]
      simp only [subprotoMaxFrameSize]
      omega

lemma pipeWriteLoop_complete (ks : List Nat) :
    ∀ (b : List Nat) (n : Nat), ks.sum = b.length →
      pipeWriteLoop b ks false n = some (n + b.length) := by
  induction ks with
  | nil =>
    intro b n h
    have hb : b = [] := List.length_eq_zero.mp (by simpa using h.symm)
    subst hb
    simp [pipeWriteLoop]
  | cons k ks ih =>
    intro b n h
    by_cases hb : b = []
    · subst hb
      simp [pipeWriteLoop]
    · rw [pipeWriteLoop, if_pos (Or.inr hb)]
      have hk : k ≤ b.length := by
        rw [← h, List.sum_cons]; omega
      have hmin : min k b.length = k := by omega
      rw [hmin]
      have hsum : ks.sum = (b.drop k).length := by
        rw [List.length_drop, ← h, List.sum_cons]; omega
      rw [ih _ _ hsum, List.length_drop]
      congr 1
      omega

lemma connWriteReturns_nonempty (buf : List Nat) (h : buf ≠ []) :
    connWriteReturns buf = some buf.length := by
  unfold connWriteReturns pipeWrite
  have hn : buf.length ≠ 0 := by
    simpa using fun hc => h (List.length_eq_zero.mp hc)
  rw [writerReadSizes_eq, if_neg hn]
  rw [pipeWriteLoop, if_pos (Or.inl rfl)]
  have hk : min buf.length subprotoMaxFrameSize ≤ buf.length := Nat.min_le_left _ _
  have hmin : min (min buf.length subprotoMaxFrameSize) buf.length =
      min buf.length subprotoMaxFrameSize := by omega
  rw [hmin]
  have hsum : (writerReadSizes (buf.length - min buf.length subprotoMaxFrameSize)).sum =
      (buf.drop (min buf.length subprotoMaxFrameSize)).length := by
    rw [writerReadSizes_sum, List.length_drop]
  rw [pipeWriteLoop_complete _ _ _ hsum, List.length_drop]
  congr 1
  omega

/-- C9 counterexample: `Conn.Write` of an empty buffer announces 0; the
writer loop consuming that announcement emits zero DATA frames and performs
zero send-pipe reads, and against that empty read schedule the zero-byte
`io.Pipe` write never completes (the rendezvous loop runs at least once even
for an empty buffer), so `Write` does not return `(0, nil)` while the tunnel
stays open — refuting the claimed `(0, nil)` return. -/
theorem empty_write_counterexample :
    writeFrame 0 [] = [] ∧ writerReadSizes 0 = [] ∧
    connWriteReturns [] = none ∧ connWriteReturns [] ≠ some 0 := by
  have h0 : writerReadSizes 0 = [] := by rw [writerReadSizes_eq]; simp
  have hcw : connWriteReturns [] = none := by
    unfold connWriteReturns pipeWrite
    simp only [List.length_nil, h0]
    rw [pipeWriteLoop, if_pos (Or.inl rfl)]
  exact ⟨by rw [writeFrame_eq]; simp, h0, hcw, by simp [hcw]⟩

/-- C9 (amended): an empty `Conn.Write` announces 0 and the writer loop
consuming the announcement emits zero DATA frames and performs zero pipe
reads, so the zero-byte pipe write never rendezvouses and `Write` blocks
instead of returning `(0, nil)` (until a later pipe read or close); a
nonempty `Write` of `buf` completes, returning `buf.length`. -/
theorem empty_write_blocks (pipe buf : List Nat) (hbuf : buf ≠ []) :
    writeFrame 0 pipe = [] ∧ writerReadSizes 0 = [] ∧
    connWriteReturns [] = none ∧ connWriteReturns buf = some buf.length := by
  have h0 : writerReadSizes 0 = [] := by rw [writerReadSizes_eq]; simp
  refine ⟨by rw [writeFrame_eq]; simp, h0, ?_, connWriteReturns_nonempty buf hbuf⟩
  unfold connWriteReturns pipeWrite
  simp only [List.length_nil, h0]
  rw [pipeWriteLoop, if_pos (Or.inl rfl)]

/-- Witness for C9's amended theorem at `buf = [7]`. -/
theorem empty_write_blocks_witness :
    writeFrame 0 [] = [] ∧ writerReadSizes 0 = [] ∧
    connWriteReturns [] = none ∧ connWriteReturns [7] = some ([7] : List Nat).length :=
  empty_write_blocks [] [7] (by simp)

/-! ### Reader-side claim theorems -/

/-- C3 (the source's message is garbled): any frame whose tag is not SUCCESS
— in particular DATA (0x0004) and ACK (0x0007) — arriving while `connected`
is still false makes `readFrame` fail with a ProtocolError whose message is
"expected success frame but not did receive one" (the source transposes
"did not"), and the reader loop terminates with exactly that error.  The
final conjunct records that this is not the message the spec claims. -/
theorem handshake_gate (sid rest : List Nat) (a u sa fuel : Nat) :
    readFrame ⟨false, sid, a, u, sa⟩ (be16 subprotoTagData ++ rest) =
      .error (.protocolError "expected success frame but not did receive one") ∧
    readFrame ⟨false, sid, a, u, sa⟩ (be16 subprotoTagAck ++ rest) =
      .error (.protocolError "expected success frame but not did receive one") ∧
    readLoop (fuel + 1) ⟨false, sid, a, u, sa⟩ (be16 subprotoTagData ++ rest) =
      some (.protocolError "expected success frame but not did receive one",
            ⟨false, sid, a, u, sa⟩, [], []) ∧
    "expected success frame but not did receive one" ≠
      "expected success frame but did not receive one" := by
  have hdata : readFrame ⟨false, sid, a, u, sa⟩ (be16 subprotoTagData ++ rest) =
      .error (.protocolError "expected success frame but not did receive one") := by
    unfold readFrame
    rw [readBytes_exact 2 (be16 subprotoTagData) rest rfl]
    simp only []
    simp [show beUint (be16 subprotoTagData) ≠ subprotoTagSuccess from by decide]
  have hack : readFrame ⟨false, sid, a, u, sa⟩ (be16 subprotoTagAck ++ rest) =
      .error (.protocolError "expected success frame but not did receive one") := by
    unfold readFrame
    rw [readBytes_exact 2 (be16 subprotoTagAck) rest rfl]
    simp only []
    simp [show beUint (be16 subprotoTagAck) ≠ subprotoTagSuccess from by decide]
  refine ⟨hdata, hack, ?_, by decide⟩
  unfold readLoop
  rw [hdata]

/-- C4 counterexample: `sendNbAcked` is overwritten from each inbound ACK
frame, so a peer acknowledging 100 and then 50 drives it from 100 down to
50 — it is not monotonically non-decreasing. -/
theorem sendAcked_decreases_counterexample :
    readFrame { connected := true } (makeAckFrame 100) =
      .ok ({ connected := true, sendNbAcked := 100 }, [], [], []) ∧
    readFrame { connected := true, sendNbAcked := 100 } (makeAckFrame 50) =
      .ok ({ connected := true, sendNbAcked := 50 }, [], [], []) ∧
    (50 : Nat) < 100 :=
  ⟨by decide, by decide, by decide⟩

/-- C4 (amended): in every successful `readFrame` step from a state
satisfying the reader invariant (with no `uint64` overflow of
`recvNbUnacked` on the step), `recvNbAcked` and `recvNbUnacked` do not
decrease; `sendNbAcked` is excluded because each inbound ACK simply
overwrites it (see the counterexample).  The writer loop touches none of
the three counters. -/
theorem recv_counters_monotonic (c c' : ConnState) (s s' out : List Nat)
    (acks : List (List Nat))
    (hinv : RecvInv c) (hov : c.recvNbUnacked + subprotoMaxFrameSize < u64size)
    (h : readFrame c s = .ok (c', s', out, acks)) :
    c.recvNbAcked ≤ c'.recvNbAcked ∧ c.recvNbUnacked ≤ c'.recvNbUnacked :=
  (readFrame_inv c c' s s' out acks hinv hov h).2

/-- Witness for C4's amended theorem: a SUCCESS frame step from the fresh
state. -/
theorem recv_counters_monotonic_witness :
    newConnState.recvNbAcked ≤ (⟨true, [], 0, 0, 0⟩ : ConnState).recvNbAcked ∧
    newConnState.recvNbUnacked ≤ (⟨true, [], 0, 0, 0⟩ : ConnState).recvNbUnacked :=
  recv_counters_monotonic newConnState ⟨true, [], 0, 0, 0⟩
    [0, 1, 0, 0, 0, 0] [] [] [] (by decide) (by decide) (by decide)

/-- C5: an inbound SUCCESS or DATA frame whose declared length exceeds 16384
is rejected by the corresponding decoder with
ProtocolError "len exceeds subprotocol max data frame size"; the same error
is the result of the whole `readFrame` step, and the reader loop terminates
with it (the tunnel treats it as fatal). -/
theorem length_bound_rejected (c : ConnState) (L fuel : Nat) (rest : List Nat)
    (hL : subprotoMaxFrameSize < L) (hL32 : L < 4294967296) :
    readSuccessFrame c (be32 L ++ rest) =
      .error (.protocolError "len exceeds subprotocol max data frame size") ∧
    readDataFrame c (be32 L ++ rest) =
      .error (.protocolError "len exceeds subprotocol max data frame size") ∧
    readFrame c (be16 subprotoTagSuccess ++ (be32 L ++ rest)) =
      .error (.protocolError "len exceeds subprotocol max data frame size") ∧
    (c.connected = true →
      readFrame c (be16 subprotoTagData ++ (be32 L ++ rest)) =
        .error (.protocolError "len exceeds subprotocol max data frame size")) ∧
    (c.connected = true →
      readLoop (fuel + 1) c (be16 subprotoTagData ++ (be32 L ++ rest)) =
        some (.protocolError "len exceeds subprotocol max data frame size",
              c, [], [])) := by
  have hgt : beUint (be32 L) > subprotoMaxFrameSize := by
    rw [beUint_be32 L hL32]
    exact hL
  have hsf : readSuccessFrame c (be32 L ++ rest) =
      .error (.protocolError "len exceeds subprotocol max data frame size") := by
    unfold readSuccessFrame
    rw [readBytes_exact 4 (be32 L) rest rfl]
    simp only []
    rw [if_pos hgt]
  have hdf : readDataFrame c (be32 L ++ rest) =
      .error (.protocolError "len exceeds subprotocol max data frame size") := by
    unfold readDataFrame
    rw [readBytes_exact 4 (be32 L) rest rfl]
    simp only []
    rw [if_pos hgt]
  have hrfd : c.connected = true →
      readFrame c (be16 subprotoTagData ++ (be32 L ++ rest)) =
        .error (.protocolError "len exceeds subprotocol max data frame size") := by
    intro hc
    unfold readFrame
    rw [readBytes_exact 2 (be16 subprotoTagData) (be32 L ++ rest) rfl]
    simp only []
    rw [if_neg (by decide), hc, if_neg (by simp), if_neg (by decide),
        if_pos (by decide), hdf]
  refine ⟨hsf, hdf, ?_, hrfd, fun hc => ?_⟩
  · unfold readFrame
    rw [readBytes_exact 2 (be16 subprotoTagSuccess) (be32 L ++ rest) rfl]
    simp only []
    rw [if_pos (by decide), hsf]
  · unfold readLoop
    rw [hrfd hc]

/-- Witness for C5 at declared length 16385 on a connected tunnel. -/
theorem length_bound_rejected_witness :
    readSuccessFrame { connected := true } (be32 16385 ++ []) =
      .error (.protocolError "len exceeds subprotocol max data frame size") ∧
    readDataFrame { connected := true } (be32 16385 ++ []) =
      .error (.protocolError "len exceeds subprotocol max data frame size") ∧
    readFrame { connected := true } (be16 subprotoTagSuccess ++ (be32 16385 ++ [])) =
      .error (.protocolError "len exceeds subprotocol max data frame size") ∧
    (({ connected := true } : ConnState).connected = true →
      readFrame { connected := true } (be16 subprotoTagData ++ (be32 16385 ++ [])) =
        .error (.protocolError "len exceeds subprotocol max data frame size")) ∧
    (({ connected := true } : ConnState).connected = true →
      readLoop (0 + 1) { connected := true } (be16 subprotoTagData ++ (be32 16385 ++ [])) =
        some (.protocolError "len exceeds subprotocol max data frame size",
              { connected := true }, [], [])) :=
  length_bound_rejected { connected := true } 16385 0 [] (by decide) (by decide)

/-- C6 counterexample: a second SUCCESS frame arriving on an already
connected tunnel (stored session id `[1,2,3,4]`) is not treated as a
protocol error — `readFrame` succeeds and silently overwrites the session id
with the new one. -/
theorem second_success_counterexample :
    readFrame { connected := true, sessionID := [1, 2, 3, 4] }
        ([0, 1] ++ be32 4 ++ [9, 9, 9, 9]) =
      .ok ({ connected := true, sessionID := [9, 9, 9, 9] }, [], [], []) := by
  decide

/-- C6 (amended): `readFrame` decodes a SUCCESS frame identically whether or
not the tunnel is already connected (there is no connected-check on the
SUCCESS path): it reads the length, rejects `> 16384`, reads the session id,
stores it (overwriting any previous one) and sets `connected := true`. -/
theorem success_frame_any_state (c : ConnState) (sid rest : List Nat)
    (h : sid.length ≤ subprotoMaxFrameSize) :
    readFrame c (be16 subprotoTagSuccess ++ (be32 sid.length ++ (sid ++ rest))) =
      .ok ({ c with sessionID := sid, connected := true }, rest, [], []) := by
  have h32 : sid.length < 4294967296 := by
    simp only [subprotoMaxFrameSize] at h
    omega
  have hsf : readSuccessFrame c (be32 sid.length ++ (sid ++ rest)) =
      .ok ({ c with sessionID := sid, connected := true }, rest) := by
    unfold readSuccessFrame
    rw [readBytes_exact 4 (be32 sid.length) (sid ++ rest) rfl]
    simp only []
    rw [beUint_be32 _ h32]
    rw [if_neg (by simp only [subprotoMaxFrameSize] at h ⊢; omega)]
    rw [readBytes_exact sid.length sid rest rfl]
  unfold readFrame
  rw [readBytes_exact 2 (be16 subprotoTagSuccess) (be32 sid.length ++ (sid ++ rest)) rfl]
  simp only []
  rw [if_pos (by decide), hsf]

/-- Witness for C6's amended theorem: a SUCCESS frame with session id
`[9, 9]` processed from the fresh state. -/
theorem success_frame_any_state_witness :
    readFrame newConnState
        (be16 subprotoTagSuccess ++ (be32 ([9, 9] : List Nat).length ++ ([9, 9] ++ [5]))) =
      .ok ({ newConnState with sessionID := [9, 9], connected := true }, [5], [], []) :=
  success_frame_any_state newConnState [9, 9] [5] (by decide)

/-- C7 counterexample: before the handshake, a frame with unknown tag 0x0002
is not ignored silently — `readFrame` fails with the handshake
ProtocolError instead of succeeding with the state unchanged. -/
theorem unknown_tag_counterexample :
    readFrame newConnState [0, 2] =
      .error (.protocolError "expected success frame but not did receive one") ∧
    readFrame newConnState [0, 2] ≠ .ok (newConnState, [], [], []) :=
  ⟨by decide, by decide⟩

/-- C7 (amended): a frame whose tag is not SUCCESS, DATA or ACK is ignored
silently — no payload consumed, no output, state unchanged — only when the
tunnel is already connected; when not yet connected the same frame fails
with ProtocolError "expected success frame but not did receive one". -/
theorem unknown_tag_ignored (c : ConnState) (t0 t1 : Nat) (rest : List Nat)
    (h1 : ¬ t0 * 256 + t1 = subprotoTagSuccess)
    (h4 : ¬ t0 * 256 + t1 = subprotoTagData)
    (h7 : ¬ t0 * 256 + t1 = subprotoTagAck) :
    (c.connected = true →
      readFrame c (t0 :: t1 :: rest) = .ok (c, rest, [], [])) ∧
    (c.connected = false →
      readFrame c (t0 :: t1 :: rest) =
        .error (.protocolError "expected success frame but not did receive one")) := by
  have hrb : readBytes 2 (t0 :: t1 :: rest) = .ok ([t0, t1], rest) :=
    readBytes_exact 2 [t0, t1] rest rfl
  have htag : beUint [t0, t1] = t0 * 256 + t1 := by
    simp [beUint]
  constructor
  · intro hc
    unfold readFrame
    rw [hrb]
    simp only []
    rw [htag, if_neg h1, hc, if_neg (by simp), if_neg h7, if_neg h4]
  · intro hc
    unfold readFrame
    rw [hrb]
    simp only []
    rw [htag, if_neg h1, hc, if_pos rfl]

/-- Witness for C7's amended theorem at tag bytes `[0, 2]`. -/
theorem unknown_tag_ignored_witness :
    (({ connected := true } : ConnState).connected = true →
      readFrame { connected := true } (0 :: 2 :: [5]) =
        .ok ({ connected := true }, [5], [], [])) ∧
    (({ connected := true } : ConnState).connected = false →
      readFrame { connected := true } (0 :: 2 :: [5]) =
        .error (.protocolError "expected success frame but not did receive one")) :=
  unknown_tag_ignored { connected := true } 0 2 [5] (by decide) (by decide) (by decide)

/-- C8 counterexample: a DATA frame declaring 5 payload bytes over a
transport that delivers only 3 before EOF does not fail — `copyNBuffer`
(io.Copy semantics) treats the early EOF as success — and `recvNbUnacked`
increases by the declared 5, not by the 3 bytes actually transferred. -/
theorem data_short_read_counterexample :
    readDataFrame { connected := true } (be32 5 ++ [1, 2, 3]) =
      .ok ({ connected := true, recvNbUnacked := 5 }, [], [1, 2, 3]) ∧
    ([1, 2, 3] : List Nat).length = 3 ∧ (3 : Nat) ≠ 5 :=
  ⟨by decide, by decide, by decide⟩

/-- C8 (amended): for a DATA frame with declared length `L ≤ 16384`, the
decoder never over-reads: when the transport holds at least `L` payload
bytes it consumes exactly `L` of them into the receive pipe and leaves the
rest; when the transport ends early it transfers what is available without
reporting an error.  In both cases `recvNbUnacked` grows by the declared
`L` (with uint64 wrap), regardless of the number of bytes transferred. -/
theorem data_frame_consumption (c : ConnState) (L : Nat) (p rest s : List Nat)
    (hL : L ≤ subprotoMaxFrameSize) (hp : p.length = L) (hs : s.length < L) :
    readDataFrame c (be32 L ++ (p ++ rest)) =
      .ok ({ c with recvNbUnacked := wrap64 (c.recvNbUnacked + L) }, rest, p) ∧
    readDataFrame c (be32 L ++ s) =
      .ok ({ c with recvNbUnacked := wrap64 (c.recvNbUnacked + L) }, [], s) := by
  have h32 : L < 4294967296 := by
    simp only [subprotoMaxFrameSize] at hL
    omega
  have hngt : ¬ beUint (be32 L) > subprotoMaxFrameSize := by
    rw [beUint_be32 L h32]
    omega
  constructor
  · unfold readDataFrame
    rw [readBytes_exact 4 (be32 L) (p ++ rest) rfl]
    simp only []
    rw [if_neg hngt, beUint_be32 L h32]
    unfold copyNBuffer
    rw [← hp, List.take_left, List.drop_left]
  · unfold readDataFrame
    rw [readBytes_exact 4 (be32 L) s rfl]
    simp only []
    rw [if_neg hngt, beUint_be32 L h32]
    unfold copyNBuffer
    rw [List.take_of_length_le (le_of_lt hs), List.drop_of_length_le (le_of_lt hs)]

/-- Witness for C8's amended theorem at `L = 2`, full payload `[8, 9]` and a
short transport `[7]`. -/
theorem data_frame_consumption_witness :
    readDataFrame newConnState (be32 2 ++ ([8, 9] ++ [4])) =
      .ok ({ newConnState with recvNbUnacked := wrap64 (newConnState.recvNbUnacked + 2) },
           [4], [8, 9]) ∧
    readDataFrame newConnState (be32 2 ++ [7]) =
      .ok ({ newConnState with recvNbUnacked := wrap64 (newConnState.recvNbUnacked + 2) },
           [], [7]) :=
  data_frame_consumption newConnState 2 [8, 9] [4] [7] (by decide) (by decide) (by decide)

/-- C2: processing a DATA frame with payload length `L ≤ 16384` on a
connected tunnel satisfying the reader invariant adds `L` to
`recvNbUnacked`; if the resulting `recvNbUnacked - recvNbAcked` exceeds
2 × 16384 = 32768 the reader emits exactly one ACK frame carrying the new
`recvNbUnacked` and sets `recvNbAcked` to it, otherwise it emits nothing
and leaves `recvNbAcked` alone; in either case, immediately after the
frame is handled, `recvNbUnacked - recvNbAcked ≤ 32768`. -/
theorem ack_threshold (c : ConnState) (L : Nat) (rest : List Nat)
    (hconn : c.connected = true) (hL : L ≤ subprotoMaxFrameSize)
    (hinv : RecvInv c) (hov : c.recvNbUnacked + subprotoMaxFrameSize < u64size) :
    ∃ c' acks,
      readFrame c (be16 subprotoTagData ++ (be32 L ++ rest)) =
        .ok (c', rest.drop L, rest.take L, acks) ∧
      c'.recvNbUnacked = c.recvNbUnacked + L ∧
      c'.recvNbAcked ≤ c'.recvNbUnacked ∧
      c'.recvNbUnacked - c'.recvNbAcked ≤ subprotoAckThreshold ∧
      (c.recvNbUnacked + L - c.recvNbAcked > subprotoAckThreshold →
        acks = [makeAckFrame (c.recvNbUnacked + L)] ∧
        c'.recvNbAcked = c.recvNbUnacked + L) ∧
      (c.recvNbUnacked + L - c.recvNbAcked ≤ subprotoAckThreshold →
        acks = [] ∧ c'.recvNbAcked = c.recvNbAcked) := by
  obtain ⟨hau, hdiff, hu⟩ := hinv
  have h32 : L < 4294967296 := by
    have hL' := hL
    simp only [subprotoMaxFrameSize] at hL'
    omega
  have hwrap : wrap64 (c.recvNbUnacked + L) = c.recvNbUnacked + L := by
    apply wrap64_eq
    omega
  have hsub : sub64 (c.recvNbUnacked + L) c.recvNbAcked =
      c.recvNbUnacked + L - c.recvNbAcked := by
    apply sub64_eq_sub
    · omega
    · omega
  have hdf : readDataFrame c (be32 L ++ rest) =
      .ok ({ c with recvNbUnacked := c.recvNbUnacked + L },
           rest.drop L, rest.take L) := by
    unfold readDataFrame
    rw [readBytes_exact 4 (be32 L) rest rfl]
    simp only []
    rw [if_neg (by rw [beUint_be32 L h32]; omega), beUint_be32 L h32]
    unfold copyNBuffer
    rw [hwrap]
  have hrf : readFrame c (be16 subprotoTagData ++ (be32 L ++ rest)) =
      (if c.recvNbUnacked + L - c.recvNbAcked > subprotoAckThreshold then
        .ok (({ c with recvNbUnacked := c.recvNbUnacked + L, recvNbAcked := c.recvNbUnacked + L } : ConnState),
             rest.drop L, rest.take L, [makeAckFrame (c.recvNbUnacked + L)])
      else
        .ok (({ c with recvNbUnacked := c.recvNbUnacked + L } : ConnState),
             rest.drop L, rest.take L, [])) := by
    unfold readFrame
    rw [readBytes_exact 2 (be16 subprotoTagData) (be32 L ++ rest) rfl]
    simp only []
    rw [if_neg (by decide), hconn, if_neg (by simp), if_neg (by decide),
        if_pos (by decide), hdf]
    simp only []
    rw [hsub, hconn]
  by_cases hthr : c.recvNbUnacked + L - c.recvNbAcked > subprotoAckThreshold
  · refine ⟨({ c with recvNbUnacked := c.recvNbUnacked + L, recvNbAcked := c.recvNbUnacked + L } : ConnState),
            [makeAckFrame (c.recvNbUnacked + L)],
            by rw [hrf, if_pos hthr], rfl, le_refl _, ?_,
            fun _ => ⟨rfl, rfl⟩, fun hle => absurd hthr (by omega)⟩
    show c.recvNbUnacked + L - (c.recvNbUnacked + L) ≤ subprotoAckThreshold
    omega
  · refine ⟨({ c with recvNbUnacked := c.recvNbUnacked + L } : ConnState), [],
            by rw [hrf, if_neg hthr], rfl, ?_, ?_,
            fun hgt => absurd hgt hthr, fun _ => ⟨rfl, rfl⟩⟩
    · show c.recvNbAcked ≤ c.recvNbUnacked + L
      omega
    · show c.recvNbUnacked + L - c.recvNbAcked ≤ subprotoAckThreshold
      omega

/-- Witness for C2: a full-size DATA frame that pushes the unacked window
over the threshold, from a connected state with 32760 unacked bytes. -/
theorem ack_threshold_witness :
    ∃ c' acks,
      readFrame ⟨true, [], 0, 32760, 0⟩
          (be16 subprotoTagData ++ (be32 16384 ++ [1, 2])) =
        .ok (c', ([1, 2] : List Nat).drop 16384, ([1, 2] : List Nat).take 16384, acks) ∧
      c'.recvNbUnacked = 32760 + 16384 ∧
      c'.recvNbAcked ≤ c'.recvNbUnacked ∧
      c'.recvNbUnacked - c'.recvNbAcked ≤ subprotoAckThreshold ∧
      (32760 + 16384 - 0 > subprotoAckThreshold →
        acks = [makeAckFrame (32760 + 16384)] ∧ c'.recvNbAcked = 32760 + 16384) ∧
      (32760 + 16384 - 0 ≤ subprotoAckThreshold →
        acks = [] ∧ c'.recvNbAcked = 0) :=
  ack_threshold ⟨true, [], 0, 32760, 0⟩ 16384 [1, 2]
    (by decide) (by decide) (by decide) (by decide)

end GoIap
